import Mathlib

/-!
Verification development for the cup-backend chat-completion gateway
(`src/app.py`).  The Python program is shallowly embedded: JSON values
become the inductive `JVal`, Python dictionary/string primitives become
explicit Lean functions, a Python exception becomes the `Except.error`
branch, and the two external collaborators (the base64 decoder used on
the credential and the outbound HTTP transport) become function
parameters, as the code only observes their input/output behaviour.
-/

namespace CupBackend

/-- A JSON value, the dynamic data the Flask handler manipulates.
`jnull` models Python `None`. -/
inductive JVal where
  | jnull
  | jbool (b : Bool)
  | jnum (n : Int)
  | jstr (s : String)
  | jarr (items : List JVal)
  | jobj (fields : List (String × JVal))

open JVal

/-- Python `d.get(key, default)`: defaulting lookup on a dict; any
non-dict receiver raises `AttributeError` (there is no `get` on other
values the handler meets). -/
def pyGet (v : JVal) (key : String) (dflt : JVal) : Except String JVal :=
  match v with
  | jobj fields => Except.ok ((List.lookup key fields).getD dflt)
  | _ => Except.error "AttributeError: object has no attribute get"

/-- Coercion to `str` demanded by Python string operations
(`+`, `startswith`): anything but a string raises `TypeError`. -/
def pyAsStr (v : JVal) : Except String String :=
  match v with
  | jstr s => Except.ok s
  | _ => Except.error "TypeError: expected str"

/-- Python `for x in v`: lists iterate their items, strings their
characters, dicts their keys; other values raise `TypeError`. -/
def pyIter (v : JVal) : Except String (List JVal) :=
  match v with
  | jarr items => Except.ok items
  | jstr s => Except.ok (s.data.map (fun c => jstr (String.mk [c])))
  | jobj fields => Except.ok (fields.map (fun p => jstr p.1))
  | _ => Except.error "TypeError: object is not iterable"

/-- Python `v[0]`: first element of a list (raising `IndexError` when
empty) or first character of a string; other receivers raise. -/
def pyIndex0 (v : JVal) : Except String JVal :=
  match v with
  | jarr [] => Except.error "IndexError: list index out of range"
  | jarr (x :: _) => Except.ok x
  | jstr s =>
      match s.data with
      | [] => Except.error "IndexError: string index out of range"
      | c :: _ => Except.ok (jstr (String.mk [c]))
  | _ => Except.error "TypeError: object is not subscriptable"

/-- Python `l[i]` on a list of strings. -/
def pyIdx (l : List String) (i : Nat) : Except String String :=
  match l.get? i with
  | some x => Except.ok x
  | none => Except.error "IndexError: list index out of range"

/-- Python `v == "s"`: equality of a dynamic value with a string
literal, true exactly on the string with that spelling. -/
def isStrEq (v : JVal) (s : String) : Bool :=
  match v with
  | jstr t => t = s
  | _ => false

/-- The whitespace characters Python `str.strip()` removes, restricted
to the ASCII whitespace this service can meet. -/
def wsChar (c : Char) : Bool :=
  c = ' ' || c = '\n' || c = '\t' || c = '\r'

/-- Python `s.strip()`: drop leading and trailing whitespace. -/
def pyStrip (s : String) : String :=
  String.mk ((((s.data.dropWhile wsChar).reverse).dropWhile wsChar).reverse)

/-- Full split of a character list at a separator character,
Python `s.split(sep)` with a one-character separator. -/
def splitCharList (sep : Char) : List Char → List (List Char)
  | [] => [[]]
  | c :: rest =>
      let r := splitCharList sep rest
      if c = sep then [] :: r
      else
        match r with
        | h :: t => (c :: h) :: t
        | [] => [[c]]

/-- Python `s.split(sep)` for a one-character separator. -/
def pySplit (s : String) (sep : Char) : List String :=
  (splitCharList sep s.data).map String.mk

/-- Join a list of strings with a one-character separator. -/
def joinSep (sep : Char) : List String → String
  | [] => ""
  | [x] => x
  | x :: xs => x ++ String.mk [sep] ++ joinSep sep xs

/-- Python `s.split(sep, 1)`: at most one split, at the first
occurrence of the separator. -/
def pySplit1 (s : String) (sep : Char) : List String :=
  match pySplit s sep with
  | [] => []
  | [x] => [x]
  | x :: xs => [x, joinSep sep xs]

/-- Python `s.startswith(pre)`. -/
def pyStartsWith (s pre : String) : Bool :=
  List.isPrefixOf pre.data s.data

/-- Fuel-driven worker for `pyReplace`; fuel bounds the number of scan
steps, and `length` fuel always suffices because every step consumes at
least one character of the input when `old` is non-empty. -/
def pyReplaceFuel (old new : List Char) : Nat → List Char → List Char
  | _, [] => []
  | 0, l => l
  | fuel + 1, c :: rest =>
      if List.isPrefixOf old (c :: rest) && !old.isEmpty then
        new ++ pyReplaceFuel old new fuel (List.drop (old.length - 1) rest)
      else
        c :: pyReplaceFuel old new fuel rest

/-- Python `s.replace(old, new)` for non-empty `old`: replace all
non-overlapping occurrences, scanning left to right. -/
def pyReplace (s old new : String) : String :=
  String.mk (pyReplaceFuel old.data new.data s.data.length s.data)

/-! The translation core: `call_bedrock_api` lines 45-85 of `app.py`. -/

/-- One item of a list-typed `content` (`app.py` lines 55-75): a `text`
item yields one text block, an `image_url` item yields one image block
when its URL carries the `data:image/` scheme and is dropped otherwise;
any other `type` yields nothing.  Dynamic-type errors propagate as
`Except.error`. -/
def translateItem (item : JVal) : Except String (Option JVal) := do
  let ty ← pyGet item "type" jnull
  if isStrEq ty "text" then
    let t ← pyGet item "text" (jstr "")
    pure (some (jobj [("type", jstr "text"), ("text", t)]))
  else if isStrEq ty "image_url" then
    let iu ← pyGet item "image_url" (jobj [])
    let urlv ← pyGet iu "url" (jstr "")
    let url ← pyAsStr urlv
    if pyStartsWith url "data:image/" then
      match pySplit1 url ',' with
      | [header, data] => do
          let afterScheme ← pyIdx (pySplit header ':') 1
          let mime ← pyIdx (pySplit afterScheme ';') 0
          pure (some (jobj [("type", jstr "image"),
            ("source", jobj [("type", jstr "base64"),
              ("media_type", jstr mime), ("data", jstr data)])]))
      | _ => Except.error "ValueError: not enough values to unpack"
    else
      pure none
  else
    pure none

/-- All items of a list-typed `content`, in order, keeping the emitted
blocks. -/
def translateItems : List JVal → Except String (List JVal)
  | [] => Except.ok []
  | item :: rest => do
      let b ← translateItem item
      let bs ← translateItems rest
      pure (b.toList ++ bs)

/-- One message of the loop at `app.py` lines 45-85.  Returns the text
this message adds to the system prompt accumulator and the (zero or
one) entries it adds to `claude_messages`.  A system message
concatenates its content plus a newline (raising `TypeError` unless the
content is a string); a user/assistant message with list content maps
its items to blocks, with any other content passed through verbatim;
other roles contribute nothing. -/
def translateMsg (msg : JVal) : Except String (String × List JVal) := do
  let role ← pyGet msg "role" jnull
  if isStrEq role "system" then
    let c ← pyGet msg "content" (jstr "")
    let s ← pyAsStr c
    pure (s ++ "\n", [])
  else if isStrEq role "user" || isStrEq role "assistant" then
    let content ← pyGet msg "content" (jstr "")
    match content with
    | jarr items => do
        let blocks ← translateItems items
        pure ("", [jobj [("role", role), ("content", jarr blocks)]])
    | c => pure ("", [jobj [("role", role), ("content", c)]])
  else
    pure ("", [])

/-- The whole message loop: accumulated system prompt text and
translated `claude_messages`, in input order; the first exception
aborts the loop. -/
def translateLoop : List JVal → Except String (String × List JVal)
  | [] => Except.ok ("", [])
  | msg :: rest => do
      let (s, es) ← translateMsg msg
      let (s2, es2) ← translateLoop rest
      pure (s ++ s2, es ++ es2)

/-- The outbound Bedrock payload (`app.py` lines 88-96): fixed version
tag, translated messages, fixed token limit, and the stripped system
prompt exactly when it is non-empty after stripping. -/
def mkBedrockPayload (claude_messages : List JVal) (system_prompt : String) : JVal :=
  jobj ([("anthropic_version", jstr "bedrock-2023-05-31"),
         ("messages", jarr claude_messages),
         ("max_tokens", jnum 1000)] ++
        (if pyStrip system_prompt = "" then []
         else [("system", jstr (pyStrip system_prompt))]))

/-- The outbound request `requests.post` receives. -/
structure Req where
  url : String
  headers : List (String × String)
  body : JVal

/-- The vendor response: an integer status and the outcome of
`response.json()` (which itself can raise). -/
structure VendorResp where
  status : Int
  jsonBody : Except String JVal

/-- The fixed vendor endpoint (`app.py` line 105). -/
def bedrock_url : String :=
  "https://bedrock-runtime.eu-central-1.amazonaws.com/model/eu.anthropic.claude-sonnet-4-5-20250929-v1:0/invoke"

/-- Extraction of the reply text from a 200 response body
(`app.py` line 116): `result.get("content", [{}])[0].get("text", "No response")`. -/
def extractText (result : JVal) : Except String JVal := do
  let contentVal ← pyGet result "content" (jarr [jobj []])
  let first ← pyIndex0 contentVal
  pyGet first "text" (jstr "No response")

/-- Body of the `try` block of `call_bedrock_api` (`app.py` lines
32-119).  `b64` is the composite `base64.b64decode(...).decode("utf-8")`
collaborator (error = the decode raising) and `transport` is
`requests.post` (error = a transport-level exception such as a
timeout); the decoded value is bound but never read, as in the source. -/
def call_bedrock_core (token : String) (b64 : String → Except String String)
    (transport : Req → Except String VendorResp)
    (messages _model : JVal) : Except String JVal := do
  if token = "" then
    pure (jstr "Error: Server API Token is not configured.")
  else
    let encoded_url := pyReplace token "bedrock-api-key-" ""
    let _decoded_url ← b64 (encoded_url ++ "===")
    let msgList ← pyIter messages
    let (system_prompt, claude_messages) ← translateLoop msgList
    let bedrock_payload := mkBedrockPayload claude_messages system_prompt
    let headers := [("Content-Type", "application/json"),
                    ("Authorization", "Bearer " ++ token)]
    let response ← transport ⟨bedrock_url, headers, bedrock_payload⟩
    if response.status = 200 then
      let result ← response.jsonBody
      extractText result
    else
      pure (jstr ("Error calling Bedrock: " ++ toString response.status))

/-- `call_bedrock_api`: the `try` body with every raised exception
caught and rendered as the `f"Error: {str(e)}"` reply string
(`app.py` lines 121-123). -/
def call_bedrock_api (token : String) (b64 : String → Except String String)
    (transport : Req → Except String VendorResp)
    (messages model : JVal) : JVal :=
  match call_bedrock_core token b64 transport messages model with
  | Except.ok v => v
  | Except.error e => jstr ("Error: " ++ e)

/-! The route handler: `chat_completions`, `app.py` lines 159-190. -/

/-- The OpenAI-shaped completion object built at `app.py` lines
167-185. -/
def buildCompletion (model content : JVal) : JVal :=
  jobj [("id", jstr "chatcmpl-bedrock"),
        ("object", jstr "chat.completion"),
        ("created", jnum 1234567890),
        ("model", model),
        ("choices", jarr [jobj [("index", jnum 0),
          ("message", jobj [("role", jstr "assistant"), ("content", content)]),
          ("finish_reason", jstr "stop")]]),
        ("usage", jobj [("prompt_tokens", jnum 10),
          ("completion_tokens", jnum 20), ("total_tokens", jnum 30)])]

/-- An HTTP result of the handler: status code and JSON body. -/
structure HttpResult where
  status : Nat
  body : JVal

/-- The POST branch of `chat_completions`.  `reqBody` is the outcome of
`request.json` (error = the body is not well-formed JSON); any
exception inside the `try` block lands in the `{"error": ...}` / 500
branch of `app.py` line 190. -/
def chat_completions (token : String) (b64 : String → Except String String)
    (transport : Req → Except String VendorResp)
    (reqBody : Except String JVal) : HttpResult :=
  match (do
      let data ← reqBody
      let messages ← pyGet data "messages" (jarr [])
      let model ← pyGet data "model" (jstr "claude-sonnet-4")
      pure (buildCompletion model
        (call_bedrock_api token b64 transport messages model))
      : Except String JVal) with
  | Except.ok body => ⟨200, body⟩
  | Except.error e => ⟨500, jobj [("error", jstr e)]⟩

/-! Auxiliary notions used by the theorems. -/

/-- Is the value a JSON object (a Python dict)? -/
def isObj : JVal → Bool
  | jobj _ => true
  | _ => false

/-- A system-role message whose content is the string `t`. -/
def sysMsgOf (t : String) : JVal :=
  jobj [("role", jstr "system"), ("content", jstr t)]

/-- An `image_url` content item for the URL `url`. -/
def imgItemOf (url : String) : JVal :=
  jobj [("type", jstr "image_url"), ("image_url", jobj [("url", jstr url)])]

/-- The system-prompt string the loop accumulates for the given system
message texts: each text followed by a newline, concatenated. -/
def codeJoin : List String → String
  | [] => ""
  | t :: ts => (t ++ "\n") ++ codeJoin ts

/-- Modelled from the spec: the "newline-joined concatenation" of the
texts, i.e. the texts interleaved with single newlines. -/
def specNlJoin : List String → String
  | [] => ""
  | [t] => t
  | t :: ts => (t ++ "\n") ++ specNlJoin ts

/-- Does a message carry a user or assistant role?  (The roles whose
messages the loop forwards.) -/
def uaRole (m : JVal) : Bool :=
  match pyGet m "role" jnull with
  | Except.ok r => isStrEq r "user" || isStrEq r "assistant"
  | _ => false

/-- The completion shape with every fixed field of `app.py` lines
167-185 spelled out; only the echoed model and the reply content
vary. -/
def IsFixedCompletion (v : JVal) : Prop :=
  ∃ m c, v =
    jobj [("id", jstr "chatcmpl-bedrock"),
          ("object", jstr "chat.completion"),
          ("created", jnum 1234567890),
          ("model", m),
          ("choices", jarr [jobj [("index", jnum 0),
            ("message", jobj [("role", jstr "assistant"), ("content", c)]),
            ("finish_reason", jstr "stop")]]),
          ("usage", jobj [("prompt_tokens", jnum 10),
            ("completion_tokens", jnum 20), ("total_tokens", jnum 30)])]

/-! General lemmas. -/

theorem exc_bind_ok {α β : Type} {e : Except String α} {f : α → Except String β}
    {v : β} : (e >>= f) = Except.ok v ↔ ∃ a, e = Except.ok a ∧ f a = Except.ok v := by
  cases e with
  | error err =>
      constructor
      · intro h; exact absurd h (by simp [Bind.bind, Except.bind])
      · rintro ⟨a, ha, _⟩; exact absurd ha (by simp)
  | ok a =>
      constructor
      · intro h; exact ⟨a, rfl, h⟩
      · rintro ⟨b, hb, hf⟩
        cases hb
        simpa [Bind.bind, Except.bind] using hf

theorem pyGet_nonobj {v : JVal} (h : isObj v = false) (key : String) (dflt : JVal) :
    pyGet v key dflt = Except.error "AttributeError: object has no attribute get" := by
  cases v <;> simp_all [isObj, pyGet]

theorem splitCharList_ne_nil (sep : Char) (l : List Char) :
    splitCharList sep l ≠ [] := by
  cases l with
  | nil => simp [splitCharList]
  | cons c rest =>
      simp only [splitCharList]
      split
      · simp
      · split <;> simp

theorem pySplit_ne_nil (s : String) (sep : Char) : pySplit s sep ≠ [] := by
  simpa [pySplit] using splitCharList_ne_nil sep s.data

/-! Claim theorems. -/

/-- Claim C7: whenever the process-wide credential is empty, for every
valid (JSON-object) request body the vendor call is skipped entirely --
the result does not depend on the transport or the decoder -- and the
handler returns HTTP 200 whose assistant message content is the fixed
missing-credential error text. -/
theorem c7_missing_credential_soft_failure
    (b64 : String → Except String String)
    (transport : Req → Except String VendorResp)
    (fields : List (String × JVal)) :
    chat_completions "" b64 transport (Except.ok (jobj fields)) =
      ⟨200, buildCompletion ((List.lookup "model" fields).getD (jstr "claude-sonnet-4"))
        (jstr "Error: Server API Token is not configured.")⟩ := rfl

/-- Claim C1, counterexample: a request body that is not well-formed
JSON makes the handler return HTTP 500 with an error envelope, not the
HTTP 200 completion the claim asserts. -/
theorem c1_malformed_json_counterexample :
    chat_completions "tok" (fun s => Except.ok s) (fun _ => Except.error "ConnectionError")
      (Except.error "Failed to decode JSON object") =
      ⟨500, jobj [("error", jstr "Failed to decode JSON object")]⟩ ∧
    (chat_completions "tok" (fun s => Except.ok s) (fun _ => Except.error "ConnectionError")
      (Except.error "Failed to decode JSON object")).status ≠ 200 :=
  ⟨rfl, by decide⟩

/-- Claim C1, amended: a request body that is not well-formed JSON, or
whose JSON value is not an object, lands in the exception path of the
handler: HTTP 500 with an `error` envelope.  The soft HTTP-200 failure
applies only to failures raised inside the vendor-call helper. -/
theorem c1_malformed_json_is_500
    (token : String) (b64 : String → Except String String)
    (transport : Req → Except String VendorResp) (reqBody : Except String JVal)
    (h : (∃ e, reqBody = Except.error e) ∨
         (∃ v, reqBody = Except.ok v ∧ isObj v = false)) :
    (chat_completions token b64 transport reqBody).status = 500 ∧
    ∃ m, (chat_completions token b64 transport reqBody).body =
      jobj [("error", jstr m)] := by
  rcases h with ⟨e, he⟩ | ⟨v, hv, hobj⟩
  · subst he
    exact ⟨rfl, ⟨e, rfl⟩⟩
  · subst hv
    cases v <;> simp_all [isObj, chat_completions, pyGet, Bind.bind, Except.bind]

theorem c1_witness :
    (chat_completions "t" (fun s => Except.ok s) (fun _ => Except.error "x")
      (Except.error "bad")).status = 500 :=
  (c1_malformed_json_is_500 "t" (fun s => Except.ok s) (fun _ => Except.error "x")
    (Except.error "bad") (Or.inl ⟨"bad", rfl⟩)).1

/-- Claim C3, counterexample: a user message with plain string content
"hi" is translated to an entry whose content is the plain string
itself, which differs from the single-Text-block list the claim
asserts. -/
theorem c3_plain_string_counterexample :
    translateMsg (jobj [("role", jstr "user"), ("content", jstr "hi")]) =
      Except.ok ("", [jobj [("role", jstr "user"), ("content", jstr "hi")]]) ∧
    jobj [("role", jstr "user"), ("content", jstr "hi")] ≠
      jobj [("role", jstr "user"),
            ("content", jarr [jobj [("type", jstr "text"), ("text", jstr "hi")]])] :=
  ⟨rfl, by simp⟩

/-- Claim C3, amended: for every user- or assistant-role message whose
content is a plain string s, the translated entry carries the plain
string s as its content, passed through unchanged (not wrapped in a
block list). -/
theorem c3_plain_string_passthrough
    (fields : List (String × JVal)) (r s : String)
    (hrole : List.lookup "role" fields = some (jstr r))
    (hr : r = "user" ∨ r = "assistant")
    (hcontent : List.lookup "content" fields = some (jstr s)) :
    translateMsg (jobj fields) =
      Except.ok ("", [jobj [("role", jstr r), ("content", jstr s)]]) := by
  rcases hr with h | h <;> subst h <;>
    simp [translateMsg, pyGet, hrole, hcontent, isStrEq, Bind.bind, Except.bind,
      Pure.pure, Except.pure]

theorem c3_witness :
    translateMsg (jobj [("role", jstr "assistant"), ("content", jstr "ok")]) =
      Except.ok ("", [jobj [("role", jstr "assistant"), ("content", jstr "ok")]]) :=
  c3_plain_string_passthrough [("role", jstr "assistant"), ("content", jstr "ok")]
    "assistant" "ok" rfl (Or.inr rfl) rfl

/-- Claim C10: every HTTP-200 completion returned by the handler has
exactly the fixed fields id chatcmpl-bedrock, object chat.completion,
created 1234567890, one choice with index 0 and finish_reason stop, and
the usage block 10/20/30; only the echoed model and the reply content
vary. -/
theorem c10_fixed_completion_fields
    (token : String) (b64 : String → Except String String)
    (transport : Req → Except String VendorResp) (reqBody : Except String JVal)
    (h : (chat_completions token b64 transport reqBody).status = 200) :
    IsFixedCompletion (chat_completions token b64 transport reqBody).body := by
  unfold chat_completions at h ⊢
  rcases reqBody with e | data
  · simp [Bind.bind, Except.bind] at h
  · cases data <;>
      simp_all [pyGet, Bind.bind, Except.bind, Pure.pure, Except.pure,
        IsFixedCompletion, buildCompletion]

theorem c10_witness :
    IsFixedCompletion (chat_completions "" (fun s => Except.ok s)
      (fun _ => Except.error "x") (Except.ok (jobj []))).body :=
  c10_fixed_completion_fields "" (fun s => Except.ok s) (fun _ => Except.error "x")
    (Except.ok (jobj [])) rfl


/-- Claim C4: for every non-empty credential, the value the base64
decoder yields for the prefix-stripped credential has no effect on the
result, and the transport is only ever consulted at a request whose
Authorization header is the raw undecoded credential with the Bearer
marker. -/
theorem c4_decoded_credential_unused
    (token : String) (htok : token ≠ "")
    (b64a b64b : String → Except String String) (va vb : String)
    (ha : b64a (pyReplace token "bedrock-api-key-" "" ++ "===") = Except.ok va)
    (hb : b64b (pyReplace token "bedrock-api-key-" "" ++ "===") = Except.ok vb)
    (t1 t2 : Req → Except String VendorResp)
    (ht : ∀ r : Req,
      r.headers = [("Content-Type", "application/json"),
                   ("Authorization", "Bearer " ++ token)] → t1 r = t2 r)
    (messages model : JVal) :
    call_bedrock_api token b64a t1 messages model =
      call_bedrock_api token b64b t2 messages model := by
  unfold call_bedrock_api call_bedrock_core
  simp only [if_neg htok, ha, hb, Bind.bind, Except.bind]
  cases hpi : pyIter messages with
  | error e => simp only [hpi]
  | ok l =>
      simp only [hpi]
      cases htr : translateLoop l with
      | error e => simp only [htr]
      | ok pr =>
          obtain ⟨sp, cm⟩ := pr
          simp only [htr]
          rw [ht _ rfl]

theorem c4_witness :
    call_bedrock_api "k" (fun _ => Except.ok "A") (fun _ => Except.error "x")
      (jarr []) jnull =
    call_bedrock_api "k" (fun _ => Except.ok "B") (fun _ => Except.error "x")
      (jarr []) jnull :=
  c4_decoded_credential_unused "k" (by decide)
    (fun _ => Except.ok "A") (fun _ => Except.ok "B") "A" "B" rfl rfl
    (fun _ => Except.error "x") (fun _ => Except.error "x")
    (fun _ _ => rfl) (jarr []) jnull

/-- Claim C5, counterexample: a 200 vendor response whose content
sequence is present but empty raises IndexError, so the result is the
exception-path error string, not the "No response" sentinel the claim
asserts. -/
theorem c5_empty_content_counterexample :
    call_bedrock_api "k" (fun s => Except.ok s)
      (fun _ => Except.ok ⟨200, Except.ok (jobj [("content", jarr [])])⟩)
      (jarr []) jnull = jstr "Error: IndexError: list index out of range" ∧
    jstr "Error: IndexError: list index out of range" ≠ jstr "No response" :=
  ⟨rfl, by simp⟩

/-- Claim C5, amended: on a 200 vendor response the reply is the text
field of the first content block; the "No response" sentinel covers a
missing content key and a first block without a text field, but an
empty content sequence raises IndexError and aborts into the exception
path. -/
theorem c5_reply_extraction
    (fs : List (String × JVal)) :
    (List.lookup "content" fs = none →
      extractText (jobj fs) = Except.ok (jstr "No response")) ∧
    (∀ gs rest, List.lookup "content" fs = some (jarr (jobj gs :: rest)) →
      extractText (jobj fs) =
        Except.ok ((List.lookup "text" gs).getD (jstr "No response"))) ∧
    (List.lookup "content" fs = some (jarr []) →
      extractText (jobj fs) = Except.error "IndexError: list index out of range") ∧
    (∀ (token : String) (b64 : String → Except String String) (v : String)
        (messages model : JVal) (l : List JVal) (sp : String) (cm : List JVal),
      token ≠ "" →
      b64 (pyReplace token "bedrock-api-key-" "" ++ "===") = Except.ok v →
      pyIter messages = Except.ok l →
      translateLoop l = Except.ok (sp, cm) →
      call_bedrock_api token b64 (fun _ => Except.ok ⟨200, Except.ok (jobj fs)⟩)
          messages model =
        (match extractText (jobj fs) with
         | Except.ok x => x
         | Except.error e => jstr ("Error: " ++ e))) := by
  refine ⟨?_, ?_, ?_, ?_⟩
  · intro h
    simp [extractText, pyGet, pyIndex0, h, Bind.bind, Except.bind]
  · intro gs rest h
    simp [extractText, pyGet, pyIndex0, h, Bind.bind, Except.bind]
  · intro h
    simp [extractText, pyGet, pyIndex0, h, Bind.bind, Except.bind]
  · intro token b64 v messages model l sp cm htok hb64 hpi htr
    unfold call_bedrock_api call_bedrock_core
    simp only [if_neg htok, hb64, hpi, htr, Bind.bind, Except.bind]
    cases hx : extractText (jobj fs) <;> simp [hx]

theorem c5_witness :
    extractText (jobj [("content", jarr [jobj [("text", jstr "hi")]])]) =
      Except.ok (jstr "hi") ∧
    extractText (jobj [("content", jarr [])]) =
      Except.error "IndexError: list index out of range" :=
  ⟨by simpa using
      (c5_reply_extraction [("content", jarr [jobj [("text", jstr "hi")]])]).2.1
        [("text", jstr "hi")] [] rfl,
    (c5_reply_extraction [("content", jarr [])]).2.2.1 rfl⟩

/-! List-level worker lemmas for the system prompt strings. -/

theorem dropWhile_append_eq (p : α → Bool) (l xs : List α) :
    List.dropWhile p (l ++ xs) =
      if (List.dropWhile p l).isEmpty then List.dropWhile p xs
      else List.dropWhile p l ++ xs := by
  induction l with
  | nil => simp
  | cons c l ih =>
      by_cases hc : p c <;> simp [List.dropWhile_cons, hc, ih]

theorem pyStrip_append_newline (s : String) : pyStrip (s ++ "\n") = pyStrip s := by
  unfold pyStrip
  rw [String.data_append]
  rw [show ("\n" : String).data = ['\n'] from rfl]
  rw [dropWhile_append_eq]
  cases hemp : (List.dropWhile wsChar s.data).isEmpty with
  | true =>
      have h0 : List.dropWhile wsChar s.data = [] := by
        simpa using hemp
      simp [hemp, h0, List.dropWhile, wsChar]
  | false =>
      simp only [hemp, Bool.false_eq_true, if_false, List.reverse_append,
        List.reverse_cons, List.reverse_nil, List.nil_append, List.singleton_append]
      simp [List.dropWhile_cons, wsChar]

theorem codeJoin_eq_specNlJoin (l : List String) (h : l ≠ []) :
    codeJoin l = specNlJoin l ++ "\n" := by
  induction l with
  | nil => simp at h
  | cons t ts ih =>
      cases ts with
      | nil =>
          show (t ++ "\n") ++ codeJoin [] = specNlJoin [t] ++ "\n"
          show (t ++ "\n") ++ "" = t ++ "\n"
          rw [String.append_empty]
      | cons u us =>
          have h1 : codeJoin (t :: u :: us) = (t ++ "\n") ++ codeJoin (u :: us) := rfl
          have h2 : specNlJoin (t :: u :: us) = (t ++ "\n") ++ specNlJoin (u :: us) := rfl
          rw [h1, ih (by simp), h2]
          simp only [String.append_assoc]

theorem pyStrip_codeJoin_eq (l : List String) :
    pyStrip (codeJoin l) = pyStrip (specNlJoin l) := by
  cases l with
  | nil => rfl
  | cons t ts =>
      rw [codeJoin_eq_specNlJoin _ (by simp), pyStrip_append_newline]

/-- Claim C6, counterexample: a list holding one system message with
empty text translates to an empty message sequence and a system prompt
that strips to the empty string, which is then left out of the payload
-- contradicting the claimed non-empty systemPrompt. -/
theorem c6_empty_system_counterexample :
    translateLoop [sysMsgOf ""] = Except.ok ("\n", []) ∧
    pyStrip "\n" = "" ∧
    mkBedrockPayload [] "\n" =
      jobj [("anthropic_version", jstr "bedrock-2023-05-31"),
            ("messages", jarr []), ("max_tokens", jnum 1000)] :=
  ⟨rfl, rfl, rfl⟩

/-- Claim C6, amended: for every list of system-only messages the
translation returns no entries and accumulates each text plus a
newline; after stripping this equals the stripped newline-joined
concatenation of the texts in order, and it enters the payload exactly
when it is non-empty. -/
theorem c6_system_only_translate (texts : List String) :
    translateLoop (texts.map sysMsgOf) = Except.ok (codeJoin texts, []) ∧
    pyStrip (codeJoin texts) = pyStrip (specNlJoin texts) ∧
    mkBedrockPayload [] (codeJoin texts) =
      jobj ([("anthropic_version", jstr "bedrock-2023-05-31"),
             ("messages", jarr []), ("max_tokens", jnum 1000)] ++
            (if pyStrip (codeJoin texts) = "" then []
             else [("system", jstr (pyStrip (codeJoin texts)))])) := by
  refine ⟨?_, pyStrip_codeJoin_eq texts, rfl⟩
  induction texts with
  | nil => rfl
  | cons t ts ih =>
      simp only [List.map_cons, translateLoop, codeJoin]
      rw [show translateMsg (sysMsgOf t) = Except.ok (t ++ "\n", []) from rfl]
      simp [ih, Bind.bind, Except.bind, Pure.pure, Except.pure]

/-- Claim C8, counterexample: an image URL that begins with the
`data:image/` marker but has no comma raises ValueError instead of
yielding an Image block, refuting the claimed "block emitted if the URL
begins with the marker, with no error". -/
theorem c8_commaless_data_uri_counterexample :
    translateItem (imgItemOf "data:image/png") =
      Except.error "ValueError: not enough values to unpack" ∧
    pyStartsWith "data:image/png" "data:image/" = true :=
  ⟨rfl, rfl⟩

/-- Claim C8, amended: an `image_url` item yields an Image block iff
its URL begins with `data:image/` and contains a comma (mime type read
between the first colon and the following semicolon, payload after the
first comma); a non-matching URL yields no block and no error, and a
matching URL without a comma raises ValueError; the claimed example
data:image/png;base64,QUJD yields media type image/png and data
QUJD. -/
theorem c8_image_item_dispatch (url : String) :
    (pyStartsWith url "data:image/" = false →
      translateItem (imgItemOf url) = Except.ok none) ∧
    (∀ header, pyStartsWith url "data:image/" = true →
      pySplit1 url ',' = [header] →
      translateItem (imgItemOf url) =
        Except.error "ValueError: not enough values to unpack") ∧
    (∀ header data a b rest2, pyStartsWith url "data:image/" = true →
      pySplit1 url ',' = [header, data] →
      pySplit header ':' = a :: b :: rest2 →
      translateItem (imgItemOf url) =
        Except.ok (some (jobj [("type", jstr "image"),
          ("source", jobj [("type", jstr "base64"),
            ("media_type", jstr ((pySplit b ';').headD "")),
            ("data", jstr data)])]))) ∧
    (translateItem (imgItemOf "data:image/png;base64,QUJD") =
      Except.ok (some (jobj [("type", jstr "image"),
        ("source", jobj [("type", jstr "base64"),
          ("media_type", jstr "image/png"), ("data", jstr "QUJD")])]))) := by
  refine ⟨?_, ?_, ?_, rfl⟩
  · intro h
    simp [translateItem, imgItemOf, pyGet, pyAsStr, isStrEq, h,
      List.lookup, Bind.bind, Except.bind, Pure.pure, Except.pure]
  · intro header h h1
    simp [translateItem, imgItemOf, pyGet, pyAsStr, isStrEq, h, h1,
      List.lookup, Bind.bind, Except.bind, Pure.pure, Except.pure]
  · intro header data a b rest2 h h1 h2
    obtain ⟨m, ms, hms⟩ := List.exists_cons_of_ne_nil (pySplit_ne_nil b ';')
    simp [translateItem, imgItemOf, pyGet, pyAsStr, isStrEq, h, h1, h2, hms,
      List.lookup, pyIdx, Bind.bind, Except.bind, Pure.pure, Except.pure]

theorem c8_witness :
    translateItem (imgItemOf "https://example.com/cat.png") = Except.ok none :=
  (c8_image_item_dispatch "https://example.com/cat.png").1 rfl

/-! Well-typedness of the dynamic values the translation loop meets:
exactly the dict shapes whose lookups and string operations cannot
raise. -/

/-- Is this `Except` an `ok` outcome? -/
def exceptOk {α : Type} (e : Except String α) : Bool :=
  match e with
  | Except.ok _ => true
  | Except.error _ => false

/-- A content item the translation handles without raising: a dict
whose `image_url` field (when the item is an image) is a dict with a
string URL that, when it carries the `data:image/` scheme, contains a
comma and a colon before the comma. -/
def wfItem : JVal → Bool
  | jobj fs =>
      let ty := (List.lookup "type" fs).getD jnull
      if isStrEq ty "text" then true
      else if isStrEq ty "image_url" then
        match (List.lookup "image_url" fs).getD (jobj []) with
        | jobj gs =>
            match (List.lookup "url" gs).getD (jstr "") with
            | jstr url =>
                if pyStartsWith url "data:image/" then
                  match pySplit1 url ',' with
                  | [header, _] => decide (2 ≤ (pySplit header ':').length)
                  | _ => false
                else true
            | _ => false
        | _ => false
      else true
  | _ => false

/-- A message the translation handles without raising: a dict whose
content is a string when the role is `system`, and whose content items
are all well-typed when the role is user/assistant with list
content. -/
def wfMsg : JVal → Bool
  | jobj fs =>
      let role := (List.lookup "role" fs).getD jnull
      if isStrEq role "system" then
        match (List.lookup "content" fs).getD (jstr "") with
        | jstr _ => true
        | _ => false
      else if isStrEq role "user" || isStrEq role "assistant" then
        match (List.lookup "content" fs).getD (jstr "") with
        | jarr items => items.all wfItem
        | _ => true
      else true
  | _ => false

theorem isStrEq_eq_true_iff (v : JVal) (s : String) :
    isStrEq v s = true ↔ v = jstr s := by
  cases v <;> simp [isStrEq]

theorem translateItem_ok_of_wf (item : JVal) (h : wfItem item = true) :
    ∃ b, translateItem item = Except.ok b := by
  cases item with
  | jobj fs =>
      simp only [wfItem] at h
      simp only [translateItem, pyGet, Bind.bind, Except.bind]
      by_cases h1 : isStrEq ((List.lookup "type" fs).getD jnull) "text"
      · simp [h1, Pure.pure, Except.pure]
      · simp only [h1, if_false, Bool.false_eq_true] at h ⊢
        by_cases h2 : isStrEq ((List.lookup "type" fs).getD jnull) "image_url"
        · simp only [h2, if_true] at h ⊢
          cases hiu : (List.lookup "image_url" fs).getD (jobj []) with
          | jobj gs =>
              simp only [hiu] at h ⊢
              cases hurl : (List.lookup "url" gs).getD (jstr "") with
              | jstr url =>
                  simp only [hurl] at h ⊢
                  simp only [pyAsStr]
                  by_cases hsw : pyStartsWith url "data:image/"
                  · simp only [hsw, if_true] at h ⊢
                    cases hsp : pySplit1 url ',' with
                    | nil => simp [hsp] at h
                    | cons a rest =>
                        cases rest with
                        | nil => simp [hsp] at h
                        | cons b rest2 =>
                            cases rest2 with
                            | nil =>
                                simp only [hsp, decide_eq_true_eq] at h
                                cases hcp : pySplit a ':' with
                                | nil => simp [hcp] at h
                                | cons x xs =>
                                    cases xs with
                                    | nil => simp [hcp] at h
                                    | cons y ys =>
                                        obtain ⟨m, ms, hms⟩ :=
                                          List.exists_cons_of_ne_nil (pySplit_ne_nil y ';')
                                        simp [hsp, hcp, hms, pyIdx, Pure.pure, Except.pure]
                            | cons c rest3 => simp [hsp] at h
                  · simp [hsw, Pure.pure, Except.pure]
              | jnull => simp [hurl] at h
              | jbool b => simp [hurl] at h
              | jnum n => simp [hurl] at h
              | jarr xs => simp [hurl] at h
              | jobj gs2 => simp [hurl] at h
          | jnull => simp [hiu] at h
          | jbool b => simp [hiu] at h
          | jnum n => simp [hiu] at h
          | jstr t => simp [hiu] at h
          | jarr xs => simp [hiu] at h
        · simp [h2, Pure.pure, Except.pure] at h ⊢
  | jnull => simp [wfItem] at h
  | jbool b => simp [wfItem] at h
  | jnum n => simp [wfItem] at h
  | jstr t => simp [wfItem] at h
  | jarr xs => simp [wfItem] at h

theorem translateItems_ok_of_wf (items : List JVal)
    (h : items.all wfItem = true) :
    ∃ bs, translateItems items = Except.ok bs := by
  induction items with
  | nil => exact ⟨[], rfl⟩
  | cons item rest ih =>
      simp only [List.all_cons, Bool.and_eq_true] at h
      obtain ⟨b, hb⟩ := translateItem_ok_of_wf item h.1
      obtain ⟨bs, hbs⟩ := ih h.2
      exact ⟨b.toList ++ bs, by
        simp [translateItems, hb, hbs, Bind.bind, Except.bind, Pure.pure, Except.pure]⟩

theorem translateMsg_ok_of_wf (m : JVal) (h : wfMsg m = true) :
    ∃ r, translateMsg m = Except.ok r := by
  cases m with
  | jobj fs =>
      simp only [wfMsg] at h
      simp only [translateMsg, pyGet, Bind.bind, Except.bind]
      by_cases h1 : isStrEq ((List.lookup "role" fs).getD jnull) "system"
      · simp only [h1, if_true] at h ⊢
        cases hc : (List.lookup "content" fs).getD (jstr "") with
        | jstr t => simp [hc, pyAsStr, Pure.pure, Except.pure]
        | jnull => simp [hc] at h
        | jbool b => simp [hc] at h
        | jnum n => simp [hc] at h
        | jarr xs => simp [hc] at h
        | jobj gs => simp [hc] at h
      · simp only [h1, if_false, Bool.false_eq_true] at h ⊢
        by_cases h2 : (isStrEq ((List.lookup "role" fs).getD jnull) "user" ||
            isStrEq ((List.lookup "role" fs).getD jnull) "assistant") = true
        · simp only [h2, if_true] at h ⊢
          cases hc : (List.lookup "content" fs).getD (jstr "") with
          | jarr items =>
              simp only [hc] at h ⊢
              obtain ⟨bs, hbs⟩ := translateItems_ok_of_wf items h
              simp [hbs, Bind.bind, Except.bind, Pure.pure, Except.pure]
          | jnull => simp [hc, Pure.pure, Except.pure]
          | jbool b => simp [hc, Pure.pure, Except.pure]
          | jnum n => simp [hc, Pure.pure, Except.pure]
          | jstr t => simp [hc, Pure.pure, Except.pure]
          | jobj gs => simp [hc, Pure.pure, Except.pure]
        · simp only [Bool.not_eq_true] at h2
          simp [h2, Pure.pure, Except.pure]
  | jnull => simp [wfMsg] at h
  | jbool b => simp [wfMsg] at h
  | jnum n => simp [wfMsg] at h
  | jstr t => simp [wfMsg] at h
  | jarr xs => simp [wfMsg] at h

/-- Claim C2, counterexample: a system-role message with list-typed
content raises TypeError, aborting the whole translation (and the
surrounding vendor call) into the exception path, instead of being
treated as empty text as the claim asserts. -/
theorem c2_system_list_content_counterexample :
    translateLoop
      [jobj [("role", jstr "system"),
             ("content", jarr [jobj [("type", jstr "text"), ("text", jstr "hi")]])],
       jobj [("role", jstr "user"), ("content", jstr "q")]] =
      Except.error "TypeError: expected str" ∧
    call_bedrock_api "k" (fun s => Except.ok s)
      (fun _ => Except.ok ⟨200, Except.ok (jobj [("content", jarr [jobj [("text", jstr "ok")]])])⟩)
      (jarr [jobj [("role", jstr "system"),
               ("content", jarr [jobj [("type", jstr "text"), ("text", jstr "hi")]])],
             jobj [("role", jstr "user"), ("content", jstr "q")]]) jnull =
      jstr "Error: TypeError: expected str" :=
  ⟨rfl, rfl⟩

/-- Claim C2, amended: the translation never raises on lists of
well-typed messages -- dicts whose content is a string for system role
and whose list-content items are dicts with well-typed image fields --
and there a malformed item only degrades to absent; outside this shape
(e.g. list content on a system message) the translation aborts into the
exception path. -/
theorem c2_translate_total_on_wf (msgs : List JVal)
    (h : msgs.all wfMsg = true) :
    exceptOk (translateLoop msgs) = true := by
  induction msgs with
  | nil => rfl
  | cons m rest ih =>
      simp only [List.all_cons, Bool.and_eq_true] at h
      obtain ⟨⟨s1, es1⟩, h1⟩ := translateMsg_ok_of_wf m h.1
      have h2 := ih h.2
      cases hrest : translateLoop rest with
      | error e => rw [hrest] at h2; simp [exceptOk] at h2
      | ok pr =>
          obtain ⟨sp2, cms2⟩ := pr
          simp [translateLoop, h1, hrest, Bind.bind, Except.bind, Pure.pure,
            Except.pure, exceptOk]

theorem c2_witness :
    exceptOk (translateLoop
      [jobj [("role", jstr "user"),
             ("content", jarr [jobj [("type", jstr "bogus")], jobj []])]]) = true :=
  c2_translate_total_on_wf
    [jobj [("role", jstr "user"),
           ("content", jarr [jobj [("type", jstr "bogus")], jobj []])]]
    (by decide)

/-! Structure of the translated message sequence (C9). -/

theorem translateMsg_entries (m : JVal) (s : String) (es : List JVal)
    (h : translateMsg m = Except.ok (s, es)) :
    (uaRole m = true ∧ ∃ r c, (r = "user" ∨ r = "assistant") ∧
       es = [jobj [("role", jstr r), ("content", c)]]) ∨
    (uaRole m = false ∧ es = []) := by
  cases m with
  | jobj fs =>
      simp only [translateMsg, pyGet, Bind.bind, Except.bind] at h
      simp only [uaRole, pyGet]
      by_cases h1 : isStrEq ((List.lookup "role" fs).getD jnull) "system"
      · rw [if_pos h1] at h
        have hrole := (isStrEq_eq_true_iff _ _).1 h1
        cases hc : (List.lookup "content" fs).getD (jstr "") with
        | jstr t =>
            simp only [hc, pyAsStr, Pure.pure, Except.pure] at h
            refine Or.inr ⟨?_, ?_⟩
            · rw [hrole]; rfl
            · cases h; rfl
        | jnull => simp [hc, pyAsStr] at h
        | jbool b => simp [hc, pyAsStr] at h
        | jnum n => simp [hc, pyAsStr] at h
        | jarr xs => simp [hc, pyAsStr] at h
        | jobj gs => simp [hc, pyAsStr] at h
      · rw [if_neg h1] at h
        by_cases h2 : (isStrEq ((List.lookup "role" fs).getD jnull) "user" ||
            isStrEq ((List.lookup "role" fs).getD jnull) "assistant") = true
        · rw [if_pos h2] at h
          have hrv : ∃ r, (List.lookup "role" fs).getD jnull = jstr r ∧
              (r = "user" ∨ r = "assistant") := by
            rcases Bool.or_eq_true_iff.1 h2 with hu | ha
            · exact ⟨"user", (isStrEq_eq_true_iff _ _).1 hu, Or.inl rfl⟩
            · exact ⟨"assistant", (isStrEq_eq_true_iff _ _).1 ha, Or.inr rfl⟩
          obtain ⟨r, hr, hor⟩ := hrv
          refine Or.inl ⟨?_, ?_⟩
          · rw [hr]
            rcases hor with h' | h' <;> rw [h'] <;> rfl
          · cases hc : (List.lookup "content" fs).getD (jstr "") with
            | jarr items =>
                simp only [hc] at h
                cases hits : translateItems items with
                | error e =>
                    rw [hits] at h
                    exact absurd h (by simp [Bind.bind, Except.bind])
                | ok bs =>
                    rw [hits] at h
                    simp only [Bind.bind, Except.bind, Pure.pure, Except.pure] at h
                    cases h
                    exact ⟨r, jarr bs, hor, by rw [hr]⟩
            | jnull => rw [hc] at h; cases h; exact ⟨r, jnull, hor, by rw [hr]⟩
            | jbool b => rw [hc] at h; cases h; exact ⟨r, jbool b, hor, by rw [hr]⟩
            | jnum n => rw [hc] at h; cases h; exact ⟨r, jnum n, hor, by rw [hr]⟩
            | jstr t => rw [hc] at h; cases h; exact ⟨r, jstr t, hor, by rw [hr]⟩
            | jobj gs => rw [hc] at h; cases h; exact ⟨r, jobj gs, hor, by rw [hr]⟩
        · rw [if_neg h2] at h
          cases h
          exact Or.inr ⟨by simpa using h2, rfl⟩
  | jnull => simp [translateMsg, pyGet, Bind.bind, Except.bind] at h
  | jbool b => simp [translateMsg, pyGet, Bind.bind, Except.bind] at h
  | jnum n => simp [translateMsg, pyGet, Bind.bind, Except.bind] at h
  | jstr t => simp [translateMsg, pyGet, Bind.bind, Except.bind] at h
  | jarr xs => simp [translateMsg, pyGet, Bind.bind, Except.bind] at h

/-- Claim C9: whenever the translation succeeds, the translated
sequence is the input order restricted to user/assistant messages, each
such message contributing exactly one entry (even with an empty block
list), the sequence length is the count of user/assistant inputs, and
every entry carries a user or assistant role -- never system. -/
theorem c9_message_order (msgs : List JVal) (sp : String) (cms : List JVal)
    (h : translateLoop msgs = Except.ok (sp, cms)) :
    cms = msgs.filterMap (fun m =>
      match translateMsg m with
      | Except.ok (_, e :: _) => some e
      | _ => none) ∧
    cms.length = msgs.countP (fun m => uaRole m) ∧
    (∀ e ∈ cms, pyGet e "role" jnull = Except.ok (jstr "user") ∨
                pyGet e "role" jnull = Except.ok (jstr "assistant")) := by
  induction msgs generalizing sp cms with
  | nil =>
      simp only [translateLoop] at h
      cases h
      exact ⟨rfl, rfl, by intro e he; simp at he⟩
  | cons m rest ih =>
      simp only [translateLoop] at h
      cases h1 : translateMsg m with
      | error e => rw [h1] at h; exact absurd h (by simp [Bind.bind, Except.bind])
      | ok pr1 =>
          obtain ⟨s1, es1⟩ := pr1
          rw [h1] at h
          cases h2 : translateLoop rest with
          | error e => rw [h2] at h; exact absurd h (by simp [Bind.bind, Except.bind])
          | ok pr2 =>
              obtain ⟨sp2, cms2⟩ := pr2
              rw [h2] at h
              simp only [Bind.bind, Except.bind, Pure.pure, Except.pure] at h
              cases h
              obtain ⟨hfm, hlen, hrole⟩ := ih sp2 cms2 h2
              rcases translateMsg_entries m s1 es1 h1 with
                ⟨hua, r, c, hor, hes⟩ | ⟨hua, hes⟩
              · subst hes
                refine ⟨?_, ?_, ?_⟩
                · simp only [List.filterMap_cons, h1, List.singleton_append]
                  rw [hfm]
                · simp only [List.singleton_append, List.length_cons,
                    List.countP_cons, hua, if_pos]
                  omega
                · intro e he
                  rcases List.mem_cons.1 (by simpa using he) with he1 | he2
                  · subst he1
                    rcases hor with h' | h' <;> subst h' <;>
                      simp [pyGet, List.lookup]
                  · exact hrole e he2
              · subst hes
                refine ⟨?_, ?_, ?_⟩
                · simp only [List.filterMap_cons, h1, List.nil_append]
                  rw [hfm]
                · simpa [List.countP_cons, hua] using hlen
                · intro e he
                  exact hrole e (by simpa using he)

theorem c9_witness :
    ([jobj [("role", jstr "user"), ("content", jstr "hi")],
      jobj [("role", jstr "assistant"), ("content", jarr [])]] : List JVal).length =
      ([sysMsgOf "a",
        jobj [("role", jstr "user"), ("content", jstr "hi")],
        jobj [("role", jstr "tool"), ("content", jstr "x")],
        jobj [("role", jstr "assistant"), ("content", jarr [])]] :
        List JVal).countP (fun m => uaRole m) :=
  (c9_message_order
    [sysMsgOf "a",
     jobj [("role", jstr "user"), ("content", jstr "hi")],
     jobj [("role", jstr "tool"), ("content", jstr "x")],
     jobj [("role", jstr "assistant"), ("content", jarr [])]]
    "a\n"
    [jobj [("role", jstr "user"), ("content", jstr "hi")],
     jobj [("role", jstr "assistant"), ("content", jarr [])]] rfl).2.1

end CupBackend
